import Mathlib

/-!
Verification development for the offline-first audit synchronization engine
of the angular-sandbox repository.

The TypeScript services are shallowly embedded as pure Lean functions:
* reactive signal state becomes explicit record-of-fields state passing,
* IndexedDB object stores become lists of records keyed by `ExternalId`
  (a `put` upserts by key, a `delete` removes by key),
* wall-clock reads (`Date.now()`, `new Date()`) become explicit `Nat`
  parameters, and `Math.random()` suffixes become explicit `String`
  parameters,
* `Observable` pipelines are flattened into the sequential composition of
  their effects, following the single-threaded cooperative scheduling of
  the source.
-/

/-- Sync status of the whole engine (`SyncStatus` in `sync-state.service.ts`). -/
inductive SyncStatus where
  | idle
  | syncing
  | success
  | error
deriving DecidableEq, Repr

/-- Sync operation kind (`SyncOperation` in the models). -/
inductive SyncOperation where
  | create
  | update
  | delete
  | fetch
deriving DecidableEq, Repr

/-- Per-record storage status (`_status` field of `OfflineAuditItem`). -/
inductive RecStatus where
  | synced
  | pending
  | deleted
deriving DecidableEq, Repr

/-- Model of `ApiAuditRecord` from `audit.model.ts`: the PascalCase API/database shape.
`Synced` is an optional numeric flag (0/1). `DateReceived`/`TimeReceived`
are kept as their wire strings. -/
structure ApiAuditRecord where
  ExternalId : String
  SlotNumber : String
  PrimaryBarcode : String
  WarehouseLogistics : String
  Comments : String
  DateReceived : String
  TimeReceived : String
  Auditors : String
  WarehouseLocation : String
  Synced : Option Nat := none
deriving DecidableEq, Repr

/-- Model of `AuditConflictData` from `audit-sync.service.ts` (part_005). -/
structure AuditConflictData where
  localAudit : ApiAuditRecord
  serverAudit : ApiAuditRecord
  localModified : Nat
  serverModified : Nat
deriving DecidableEq, Repr

/-- Result type of `AuditSyncService.resolveConflict`. -/
inductive ConflictResolution where
  | useLocal
  | useServer
deriving DecidableEq, Repr

/-- Embedding of `AuditSyncService.detectConflict`.  In the source, `serverModified` is
`new Date().getTime()` captured at invocation time (a placeholder for a
server-side timestamp); the embedding makes that clock reading an explicit
parameter.  A conflict is reported exactly when `localModified >
serverModified` and at least one of the six business fields differs. -/
def detectConflict (localAudit serverAudit : ApiAuditRecord)
    (localModified serverModified : Nat) : Option AuditConflictData :=
  if localModified > serverModified ∧
      (localAudit.SlotNumber ≠ serverAudit.SlotNumber ∨
       localAudit.PrimaryBarcode ≠ serverAudit.PrimaryBarcode ∨
       localAudit.WarehouseLogistics ≠ serverAudit.WarehouseLogistics ∨
       localAudit.Comments ≠ serverAudit.Comments ∨
       localAudit.Auditors ≠ serverAudit.Auditors ∨
       localAudit.WarehouseLocation ≠ serverAudit.WarehouseLocation) then
    some ⟨localAudit, serverAudit, localModified, serverModified⟩
  else
    none

/-- Embedding of `AuditSyncService.resolveConflict`: last-write-wins,
`conflict.localModified > conflict.serverModified ? 'use-local' : 'use-server'`. -/
def resolveConflict (conflict : AuditConflictData) : ConflictResolution :=
  if conflict.localModified > conflict.serverModified then
    ConflictResolution.useLocal
  else
    ConflictResolution.useServer

/-- Equality of the six business fields compared by `detectConflict`
(slot number, barcode, logistics, comments, auditors, location). -/
abbrev sameBusinessFields (l r : ApiAuditRecord) : Prop :=
  l.SlotNumber = r.SlotNumber ∧
  l.PrimaryBarcode = r.PrimaryBarcode ∧
  l.WarehouseLogistics = r.WarehouseLogistics ∧
  l.Comments = r.Comments ∧
  l.Auditors = r.Auditors ∧
  l.WarehouseLocation = r.WarehouseLocation

/-- C3: `detectConflict` returns none whenever the six business fields agree,
regardless of the two timestamps; and it returns a conflict exactly when at
least one business field differs and the local record was modified after the
baseline (`serverModified`, the clock reading the source captures at
invocation). -/
theorem C3_detectConflict_characterization
    (l r : ApiAuditRecord) (localModified serverModified : Nat) :
    (sameBusinessFields l r →
      detectConflict l r localModified serverModified = none) ∧
    ((detectConflict l r localModified serverModified).isSome ↔
      ¬ sameBusinessFields l r ∧ localModified > serverModified) := by
  unfold detectConflict
  split
  · rename_i h
    obtain ⟨ht, hd⟩ := h
    constructor
    · intro hs
      exact absurd hd (by push_neg; tauto)
    · simp only [Option.isSome_some, true_iff]
      refine ⟨?_, ht⟩
      intro hs
      exact absurd hd (by push_neg; tauto)
  · rename_i h
    constructor
    · intro _
      rfl
    · simp only [Option.isSome_none, Bool.false_eq_true, false_iff]
      intro ⟨hne, ht⟩
      apply h
      refine ⟨ht, ?_⟩
      by_contra hall
      push_neg at hall
      exact hne ⟨hall.1, hall.2.1, hall.2.2.1, hall.2.2.2.1, hall.2.2.2.2.1,
        hall.2.2.2.2.2⟩

/-- Sample record used to instantiate hypotheses of proved theorems. -/
def sampleAudit : ApiAuditRecord :=
  { ExternalId := "EXT-1"
    SlotNumber := "A1-B2-C3"
    PrimaryBarcode := "123456789012"
    WarehouseLogistics := "INBOUND"
    Comments := "ok"
    DateReceived := "2023-10-15"
    TimeReceived := "14:30:00"
    Auditors := "John Doe"
    WarehouseLocation := "Section A"
    Synced := some 1 }

/-- A second sample record differing from `sampleAudit` in a business field. -/
def sampleAuditB : ApiAuditRecord :=
  { sampleAudit with ExternalId := "EXT-2", SlotNumber := "Z9-Z9-Z9" }

/-- Witness for C3 at concrete inputs. -/
theorem C3_detectConflict_characterization_witness :
    detectConflict sampleAudit sampleAudit 100 5 = none ∧
    (detectConflict sampleAudit sampleAuditB 100 5).isSome = true :=
  ⟨(C3_detectConflict_characterization sampleAudit sampleAudit 100 5).1
      ⟨rfl, rfl, rfl, rfl, rfl, rfl⟩,
    (C3_detectConflict_characterization sampleAudit sampleAuditB 100 5).2.mpr
      (by refine ⟨?_, by decide⟩; intro h; exact absurd h.1 (by decide))⟩

/-- C4: `resolveConflict` is last-write-wins with ties to the server:
a strictly newer server timestamp yields use-server, a strictly newer local
timestamp yields use-local, and equal timestamps yield use-server. -/
theorem C4_resolveConflict_lastWriteWins (c : AuditConflictData) :
    (c.serverModified > c.localModified →
      resolveConflict c = ConflictResolution.useServer) ∧
    (c.localModified > c.serverModified →
      resolveConflict c = ConflictResolution.useLocal) ∧
    (c.localModified = c.serverModified →
      resolveConflict c = ConflictResolution.useServer) := by
  refine ⟨?_, ?_, ?_⟩
  · intro h
    unfold resolveConflict
    rw [if_neg]
    omega
  · intro h
    unfold resolveConflict
    rw [if_pos h]
  · intro h
    unfold resolveConflict
    rw [if_neg]
    omega

/-- Witness for C4 at concrete conflicts covering all three cases. -/
theorem C4_resolveConflict_lastWriteWins_witness :
    resolveConflict ⟨sampleAudit, sampleAuditB, 3, 7⟩ = ConflictResolution.useServer ∧
    resolveConflict ⟨sampleAudit, sampleAuditB, 7, 3⟩ = ConflictResolution.useLocal ∧
    resolveConflict ⟨sampleAudit, sampleAuditB, 5, 5⟩ = ConflictResolution.useServer :=
  ⟨(C4_resolveConflict_lastWriteWins ⟨sampleAudit, sampleAuditB, 3, 7⟩).1 (by decide),
    (C4_resolveConflict_lastWriteWins ⟨sampleAudit, sampleAuditB, 7, 3⟩).2.1 (by decide),
    (C4_resolveConflict_lastWriteWins ⟨sampleAudit, sampleAuditB, 5, 5⟩).2.2 rfl⟩

/-- C5 counterexample: `detectConflict` is not independent of when it runs.
The source reads `new Date().getTime()` inside the function as the baseline,
so the same (local, remote, localModified) inputs give a conflict when the
call happens at clock reading 50 but none at clock reading 150. -/
theorem C5_detectConflict_invocation_time_dependent :
    detectConflict sampleAudit sampleAuditB 100 50 ≠
      detectConflict sampleAudit sampleAuditB 100 150 := by
  decide

/-- C5 amended: whether `detectConflict` reports a conflict depends only on
its inputs together with the wall-clock reading captured at invocation; two
invocations on the same inputs decide alike whenever their clock readings lie
on the same side of `localModified` (in particular whenever both observe the
same clock value). -/
theorem C5_detectConflict_deterministic_given_clock
    (l r : ApiAuditRecord) (localModified t₁ t₂ : Nat)
    (h : localModified > t₁ ↔ localModified > t₂) :
    (detectConflict l r localModified t₁).isSome =
      (detectConflict l r localModified t₂).isSome := by
  unfold detectConflict
  by_cases hd : (l.SlotNumber ≠ r.SlotNumber ∨ l.PrimaryBarcode ≠ r.PrimaryBarcode ∨
      l.WarehouseLogistics ≠ r.WarehouseLogistics ∨ l.Comments ≠ r.Comments ∨
      l.Auditors ≠ r.Auditors ∨ l.WarehouseLocation ≠ r.WarehouseLocation)
  · by_cases hgt : localModified > t₁
    · have hgt₂ : localModified > t₂ := h.mp hgt
      rw [if_pos ⟨hgt, hd⟩, if_pos ⟨hgt₂, hd⟩]
      rfl
    · have hgt₂ : ¬ localModified > t₂ := fun hh => hgt (h.mpr hh)
      rw [if_neg (by tauto), if_neg (by tauto)]
  · rw [if_neg (by tauto), if_neg (by tauto)]

/-- Witness for C5's amended theorem at concrete clock readings. -/
theorem C5_detectConflict_deterministic_given_clock_witness :
    (detectConflict sampleAudit sampleAuditB 100 10).isSome =
      (detectConflict sampleAudit sampleAuditB 100 20).isSome :=
  C5_detectConflict_deterministic_given_clock sampleAudit sampleAuditB 100 10 20
    (by omega)

/-- Model of `OfflineAuditItem` from `audit-storage.service.ts`: the stored
shape extends `ApiAuditRecord` (kept here as the nested `record`) with the
offline bookkeeping fields `_localId`, `_status`, `_lastModified`. -/
structure OfflineAuditItem where
  record : ApiAuditRecord
  _localId : String
  _status : RecStatus
  _lastModified : Nat
deriving DecidableEq, Repr

/-- Storage key of an item: the audits object store uses keyPath
`ExternalId`. -/
def itemKey (it : OfflineAuditItem) : String :=
  it.record.ExternalId

/-- Model of IndexedDB `store.put`: upsert by key. -/
def putByKey (db : List OfflineAuditItem) (item : OfflineAuditItem) :
    List OfflineAuditItem :=
  if db.any (fun it => decide (itemKey it = itemKey item)) then
    db.map (fun it => if itemKey it = itemKey item then item else it)
  else
    db ++ [item]

/-- Stored item built by `AuditStorageService.saveItem`: `_localId` is
`audit.ExternalId || this.generateLocalId()` (the minted id uses the current
time and a random suffix, both explicit parameters here). -/
def mkOfflineItem (audit : ApiAuditRecord) (status : RecStatus) (now : Nat)
    (fresh : String) : OfflineAuditItem :=
  { record := audit
    _localId :=
      if audit.ExternalId = "" then "local_" ++ toString now ++ "_" ++ fresh
      else audit.ExternalId
    _status := status
    _lastModified := now }

/-- Embedding of `AuditStorageService.saveItem`. -/
def saveItem (db : List OfflineAuditItem) (audit : ApiAuditRecord)
    (status : RecStatus) (now : Nat) (fresh : String) : List OfflineAuditItem :=
  putByKey db (mkOfflineItem audit status now fresh)

/-- Embedding of `AuditStorageService.getAllItems`: all stored audits whose
status is not deleted. -/
def getAllItems (db : List OfflineAuditItem) : List OfflineAuditItem :=
  db.filter (fun it => decide (it._status ≠ RecStatus.deleted))

/-- Embedding of `AuditStorageService.getItem`: lookup by key, excluding
deleted records. -/
def getItem (db : List OfflineAuditItem) (id : String) : Option OfflineAuditItem :=
  match db.find? (fun it => decide (itemKey it = id)) with
  | none => none
  | some it => if it._status ≠ RecStatus.deleted then some it else none

/-- Embedding of `AuditStorageService.deleteItem`: soft delete — if the key
is present, mark it deleted and stamp `_lastModified`; otherwise no-op. -/
def deleteItem (db : List OfflineAuditItem) (id : String) (now : Nat) :
    List OfflineAuditItem :=
  if db.any (fun it => decide (itemKey it = id)) then
    db.map (fun it =>
      if itemKey it = id then
        { it with _status := RecStatus.deleted, _lastModified := now }
      else it)
  else
    db

/-- Embedding of `AuditStorageService.markAsSynced`: set status synced and
stamp `_lastModified`; no-op if the key is absent. -/
def markAsSynced (db : List OfflineAuditItem) (id : String) (now : Nat) :
    List OfflineAuditItem :=
  if db.any (fun it => decide (itemKey it = id)) then
    db.map (fun it =>
      if itemKey it = id then
        { it with _status := RecStatus.synced, _lastModified := now }
      else it)
  else
    db

/-- Embedding of `AuditStorageService.removeItem`: hard delete by key. -/
def removeItem (db : List OfflineAuditItem) (id : String) : List OfflineAuditItem :=
  db.filter (fun it => decide (itemKey it ≠ id))

/-- Embedding of `AuditStorageService.getPendingItems` (the `_status` index
queried at `pending`). -/
def getPendingItems (db : List OfflineAuditItem) : List OfflineAuditItem :=
  db.filter (fun it => decide (it._status = RecStatus.pending))

/-- Embedding of `AuditStorageService.getDeletedItems` (the `_status` index
queried at `deleted`). -/
def getDeletedItems (db : List OfflineAuditItem) : List OfflineAuditItem :=
  db.filter (fun it => decide (it._status = RecStatus.deleted))

/-- Model of `ConflictInfo` from the models. -/
structure ConflictInfo where
  itemId : String
  localModified : Nat
  serverModified : Nat
  resolved : Bool
deriving DecidableEq, Repr

/-- State of `SyncStateService` (sync-state.service.ts): one record per
signal. `lastSyncTime` keeps the timestamp handed to it. -/
structure SyncStateModel where
  syncStatus : SyncStatus
  currentOperation : Option SyncOperation
  currentItemId : Option String
  lastSyncTime : Option Nat
  syncError : Option String
  pendingRecordsCount : Nat
  conflicts : List ConflictInfo
deriving DecidableEq, Repr

/-- Initial values of all `SyncStateService` signals. -/
def initialSyncState : SyncStateModel :=
  { syncStatus := SyncStatus.idle
    currentOperation := none
    currentItemId := none
    lastSyncTime := none
    syncError := none
    pendingRecordsCount := 0
    conflicts := [] }

/-- Embedding of `SyncStateService.setSyncStatus`: on success it also stamps
`lastSyncTime` and clears the error. -/
def setSyncStatus (s : SyncStateModel) (status : SyncStatus) (now : Nat) :
    SyncStateModel :=
  let s := { s with syncStatus := status }
  if status = SyncStatus.success then
    { s with lastSyncTime := some now, syncError := none }
  else
    s

/-- Embedding of `SyncStateService.setCurrentOperation`. -/
def setCurrentOperation (s : SyncStateModel) (operation : Option SyncOperation)
    (itemId : Option String) : SyncStateModel :=
  { s with currentOperation := operation, currentItemId := itemId }

/-- Model of JavaScript truthiness for a nullable string: both null and the
empty string are falsy under `if (error)`. -/
def jsTruthyString (s : Option String) : Bool :=
  match s with
  | none => false
  | some str => decide (str ≠ "")

/-- Embedding of `SyncStateService.setSyncError`: the error value is always
stored, and a truthy error (the guard is JS `if (error)`, falsy for null and
for the empty string) also forces the status to error. -/
def setSyncError (s : SyncStateModel) (error : Option String) : SyncStateModel :=
  let s := { s with syncError := error }
  if jsTruthyString error then { s with syncStatus := SyncStatus.error } else s

/-- Both branches of `setSyncError` store the given error value. -/
theorem setSyncError_syncError (s : SyncStateModel) (error : Option String) :
    (setSyncError s error).syncError = error := by
  unfold setSyncError
  split <;> rfl

/-- Embedding of `SyncStateService.clearSyncError`: clears the error and
resets an error status to idle. -/
def clearSyncError (s : SyncStateModel) : SyncStateModel :=
  let s := { s with syncError := none }
  if s.syncStatus = SyncStatus.error then { s with syncStatus := SyncStatus.idle }
  else s

/-- Embedding of `SyncStateService.setPendingRecordsCount` with the
`Math.max(0, count)` clamp (counts arrive as JS numbers, modelled as `Int`). -/
def setPendingRecordsCount (s : SyncStateModel) (count : Int) : SyncStateModel :=
  { s with pendingRecordsCount := (max 0 count).toNat }

/-- Embedding of `SyncStateService.addConflict`: replace an existing conflict
for the item or append a new unresolved one. -/
def addConflict (s : SyncStateModel) (itemId : String)
    (localModified serverModified : Nat) : SyncStateModel :=
  let conflict : ConflictInfo := ⟨itemId, localModified, serverModified, false⟩
  { s with conflicts :=
      if s.conflicts.any (fun c => decide (c.itemId = itemId)) then
        s.conflicts.map (fun c => if c.itemId = itemId then conflict else c)
      else
        s.conflicts ++ [conflict] }

/-- Embedding of `SyncStateService.removeConflict`. -/
def removeConflict (s : SyncStateModel) (itemId : String) : SyncStateModel :=
  { s with conflicts := s.conflicts.filter (fun c => decide (c.itemId ≠ itemId)) }

/-- Embedding of `SyncStateService.markConflictResolved`. -/
def markConflictResolved (s : SyncStateModel) (itemId : String) : SyncStateModel :=
  { s with conflicts :=
      s.conflicts.map (fun c =>
        if c.itemId = itemId then { c with resolved := true } else c) }

/-- Embedding of `SyncStateService.clearConflicts`. -/
def clearConflicts (s : SyncStateModel) : SyncStateModel :=
  { s with conflicts := [] }

/-- Embedding of `SyncStateService.updateLastSyncTime`. -/
def updateLastSyncTime (s : SyncStateModel) (now : Nat) : SyncStateModel :=
  { s with lastSyncTime := some now }

/-- Embedding of `SyncStateService.reset`. -/
def resetSyncState (_s : SyncStateModel) : SyncStateModel :=
  initialSyncState

/-- One mutation call on `SyncStateService` (clock readings explicit). -/
inductive SyncStateOp where
  | setSyncStatus (status : SyncStatus) (now : Nat)
  | setCurrentOperation (operation : Option SyncOperation) (itemId : Option String)
  | setSyncError (error : Option String)
  | clearSyncError
  | setPendingRecordsCount (count : Int)
  | addConflict (itemId : String) (localModified serverModified : Nat)
  | removeConflict (itemId : String)
  | markConflictResolved (itemId : String)
  | clearConflicts
  | updateLastSyncTime (now : Nat)
  | reset
deriving DecidableEq, Repr

/-- Dispatch of one `SyncStateService` mutation. -/
def applySyncStateOp (s : SyncStateModel) : SyncStateOp → SyncStateModel
  | SyncStateOp.setSyncStatus status now => setSyncStatus s status now
  | SyncStateOp.setCurrentOperation operation itemId =>
      setCurrentOperation s operation itemId
  | SyncStateOp.setSyncError error => setSyncError s error
  | SyncStateOp.clearSyncError => clearSyncError s
  | SyncStateOp.setPendingRecordsCount count => setPendingRecordsCount s count
  | SyncStateOp.addConflict itemId lm sm => addConflict s itemId lm sm
  | SyncStateOp.removeConflict itemId => removeConflict s itemId
  | SyncStateOp.markConflictResolved itemId => markConflictResolved s itemId
  | SyncStateOp.clearConflicts => clearConflicts s
  | SyncStateOp.updateLastSyncTime now => updateLastSyncTime s now
  | SyncStateOp.reset => resetSyncState s

/-- Run a sequence of `SyncStateService` mutations from the initial state. -/
def runSyncStateOps (ops : List SyncStateOp) : SyncStateModel :=
  ops.foldl applySyncStateOp initialSyncState

/-- The sync-state invariant the code actually maintains: a success status
never coexists with a truthy error (the error is null or the falsy empty
string). -/
def SyncStateInv (s : SyncStateModel) : Prop :=
  s.syncStatus = SyncStatus.success →
    s.syncError = none ∨ s.syncError = some ""

theorem syncStateInv_initial : SyncStateInv initialSyncState := by
  intro h
  exact Or.inl rfl

theorem syncStateInv_preserved (s : SyncStateModel) (op : SyncStateOp)
    (h : SyncStateInv s) : SyncStateInv (applySyncStateOp s op) := by
  cases op with
  | setSyncStatus status now =>
      show SyncStateInv (setSyncStatus s status now)
      unfold setSyncStatus
      split
      · intro hs
        exact Or.inl rfl
      · rename_i hst
        intro hs
        exact absurd hs hst
  | setCurrentOperation operation itemId =>
      intro hs
      exact h hs
  | setSyncError error =>
      show SyncStateInv (setSyncError s error)
      unfold setSyncError
      split
      · intro hs
        exact SyncStatus.noConfusion hs
      · rename_i he
        intro hs
        cases error with
        | none => exact Or.inl rfl
        | some str =>
            have hstr : str = "" := by simpa [jsTruthyString] using he
            subst hstr
            exact Or.inr rfl
  | clearSyncError =>
      show SyncStateInv (clearSyncError s)
      unfold clearSyncError
      dsimp only
      split
      · intro hs
        exact Or.inl rfl
      · intro hs
        exact Or.inl rfl
  | setPendingRecordsCount count =>
      intro hs
      exact h hs
  | addConflict itemId lm sm =>
      intro hs
      exact h hs
  | removeConflict itemId =>
      intro hs
      exact h hs
  | markConflictResolved itemId =>
      intro hs
      exact h hs
  | clearConflicts =>
      intro hs
      exact h hs
  | updateLastSyncTime now =>
      intro hs
      exact h hs
  | reset =>
      intro hs
      exact Or.inl rfl

theorem syncStateInv_run (ops : List SyncStateOp) :
    SyncStateInv (runSyncStateOps ops) := by
  rw [runSyncStateOps]
  generalize hinit : initialSyncState = s
  have hbase : SyncStateInv s := hinit ▸ syncStateInv_initial
  clear hinit
  induction ops generalizing s with
  | nil => exact hbase
  | cons op rest ih =>
      exact ih (applySyncStateOp s op) (syncStateInv_preserved s op hbase)

/-- C10 counterexample: the reachable mutation sequence
setSyncStatus('success') then setSyncError('') ends with status success and a
non-null sync error — the claimed invariant fails, and so does its
"non-null error forces status 'error'" part, because the source's
`if (error)` guard treats the empty string as falsy and leaves the status
untouched. -/
theorem C10_success_with_nonnull_error_counterexample :
    (runSyncStateOps [SyncStateOp.setSyncStatus SyncStatus.success 5,
        SyncStateOp.setSyncError (some "")]).syncStatus = SyncStatus.success ∧
    (runSyncStateOps [SyncStateOp.setSyncStatus SyncStatus.success 5,
        SyncStateOp.setSyncError (some "")]).syncError = some "" ∧
    (runSyncStateOps [SyncStateOp.setSyncStatus SyncStatus.success 5,
        SyncStateOp.setSyncError (some "")]).syncError ≠ none := by
  decide

/-- C10 amended: starting from the initial state, after every sequence of
`SyncStateService` mutation calls, a success status implies the sync error is
null or the falsy empty string; setting the status to success clears any
error, and setting a truthy (non-null, non-empty) error forces the status to
error. -/
theorem C10_syncState_success_error_falsy :
    (∀ ops : List SyncStateOp,
      (runSyncStateOps ops).syncStatus = SyncStatus.success →
      (runSyncStateOps ops).syncError = none ∨
        (runSyncStateOps ops).syncError = some "") ∧
    (∀ (s : SyncStateModel) (now : Nat),
      (setSyncStatus s SyncStatus.success now).syncError = none) ∧
    (∀ (s : SyncStateModel) (e : String), e ≠ "" →
      (setSyncError s (some e)).syncStatus = SyncStatus.error) := by
  refine ⟨fun ops => syncStateInv_run ops, fun s now => ?_, fun s e he => ?_⟩
  · simp [setSyncStatus]
  · unfold setSyncError
    rw [if_pos (by simpa [jsTruthyString] using he)]

/-- Witness for C10's amended theorem: a run ending in success reports a
falsy error, and a concrete truthy error forces the error status. -/
theorem C10_syncState_success_error_falsy_witness :
    ((runSyncStateOps [SyncStateOp.setSyncError (some "boom"),
        SyncStateOp.setSyncStatus SyncStatus.success 5]).syncError = none ∨
      (runSyncStateOps [SyncStateOp.setSyncError (some "boom"),
        SyncStateOp.setSyncStatus SyncStatus.success 5]).syncError = some "") ∧
    (setSyncError initialSyncState (some "boom")).syncStatus = SyncStatus.error :=
  ⟨C10_syncState_success_error_falsy.1
      [SyncStateOp.setSyncError (some "boom"),
        SyncStateOp.setSyncStatus SyncStatus.success 5] rfl,
    C10_syncState_success_error_falsy.2.2 initialSyncState "boom" (by decide)⟩

/-- Model of the domain `AuditRecord` (audit.model.ts), the camelCase shape
published to the active view.  The source stores `dateReceived` as
`new Date(DateReceived)`; the embedding represents that date by its source
string. -/
structure AuditRecord where
  externalId : String
  slotNumber : String
  primaryBarcode : String
  warehouseLogistics : String
  comments : String
  dateReceived : String
  timeReceived : String
  auditors : String
  warehouseLocation : String
  synced : Bool
deriving DecidableEq, Repr

/-- Embedding of `AuditTransformationService.transformApiAuditToAudit`. -/
def transformApiAuditToAudit (apiAudit : ApiAuditRecord) : AuditRecord :=
  { externalId := apiAudit.ExternalId
    slotNumber := apiAudit.SlotNumber
    primaryBarcode := apiAudit.PrimaryBarcode
    warehouseLogistics := apiAudit.WarehouseLogistics
    comments := apiAudit.Comments
    dateReceived := apiAudit.DateReceived
    timeReceived := apiAudit.TimeReceived
    auditors := apiAudit.Auditors
    warehouseLocation := apiAudit.WarehouseLocation
    synced := decide (apiAudit.Synced = some 1) }

/-- Model of `CreateAuditRequest` from audit.model.ts. -/
structure CreateAuditRequest where
  slotNumber : String
  primaryBarcode : String
  warehouseLogistics : String
  comments : String
  auditors : String
  warehouseLocation : String
deriving DecidableEq, Repr

/-- Model of `UpdateAuditRequest`, which extends `CreateAuditRequest` with
the id of the record to update. -/
structure UpdateAuditRequest extends CreateAuditRequest where
  externalId : String
deriving DecidableEq, Repr

/-- Model of JavaScript `String.prototype.trim`: strip whitespace from both
ends of the string. -/
def jsTrim (s : String) : String :=
  ⟨((s.data.dropWhile Char.isWhitespace).reverse.dropWhile
      Char.isWhitespace).reverse⟩

/-- Model of JavaScript `String.prototype.startsWith`. -/
def jsStartsWith (s pat : String) : Bool :=
  List.isPrefixOf pat.data s.data

/-- Embedding of the private `isValidGTIN` of the transformation service:
keep the digits, require a GTIN length of 8, 12, 13 or 14. -/
def isValidGTIN (barcode : String) : Bool :=
  let digits := barcode.toList.filter Char.isDigit
  if ¬ [8, 12, 13, 14].contains digits.length then
    false
  else
    decide (digits.length ≥ 8)

/-- Embedding of `AuditTransformationService.validateAuditData`: required
fields must be non-blank after trimming, and a non-empty barcode must pass
the GTIN check.  Errors are accumulated in source order. -/
def validateAuditData (audit : CreateAuditRequest) : List String :=
  let errors : List String := []
  let errors :=
    if jsTrim audit.slotNumber = "" then errors ++ ["Slot number is required"]
    else errors
  let errors :=
    if jsTrim audit.primaryBarcode = "" then errors ++ ["Primary barcode is required"]
    else errors
  let errors :=
    if jsTrim audit.warehouseLogistics = "" then
      errors ++ ["Warehouse logistics is required"]
    else errors
  let errors :=
    if jsTrim audit.auditors = "" then errors ++ ["Auditor name is required"]
    else errors
  let errors :=
    if jsTrim audit.warehouseLocation = "" then
      errors ++ ["Warehouse location is required"]
    else errors
  let errors :=
    if audit.primaryBarcode ≠ "" ∧ isValidGTIN audit.primaryBarcode = false then
      errors ++ ["Invalid barcode format"]
    else errors
  errors

/-- Embedding of `transformCreateRequestToApiRequest` on its
`CreateAuditRequest` branch (the duck-typed union is split in two): the
camelCase request is returned field for field. -/
def transformCreateRequestToApiRequest (request : CreateAuditRequest) :
    CreateAuditRequest :=
  { slotNumber := request.slotNumber
    primaryBarcode := request.primaryBarcode
    warehouseLogistics := request.warehouseLogistics
    comments := request.comments
    auditors := request.auditors
    warehouseLocation := request.warehouseLocation }

/-- Embedding of `transformCreateRequestToApiRequest` on its
`OfflineAuditRecord` branch (the `'SlotNumber' in request` case): project
the PascalCase record down to a create request. -/
def transformOfflineRecordToApiRequest (record : ApiAuditRecord) :
    CreateAuditRequest :=
  { slotNumber := record.SlotNumber
    primaryBarcode := record.PrimaryBarcode
    warehouseLogistics := record.WarehouseLogistics
    comments := record.Comments
    auditors := record.Auditors
    warehouseLocation := record.WarehouseLocation }

/-- Embedding of `AuditTransformationService.transformUpdateRequestToApiRequest`:
drop `externalId`, keep the update fields. -/
def transformUpdateRequestToApiRequest (request : UpdateAuditRequest) :
    CreateAuditRequest :=
  request.toCreateAuditRequest

/-- Embedding of `AuditStateService.addAudit`. -/
def addAudit (view : List AuditRecord) (audit : AuditRecord) : List AuditRecord :=
  view ++ [audit]

/-- Embedding of `AuditStateService.updateAudit` on the audits collection:
replace entries whose `externalId` equals that of the updated record. -/
def updateAuditInView (view : List AuditRecord) (updatedAudit : AuditRecord) :
    List AuditRecord :=
  view.map (fun audit =>
    if audit.externalId = updatedAudit.externalId then updatedAudit else audit)

/-- Embedding of `AuditStateService.removeAudit` on the audits collection. -/
def removeAuditFromView (view : List AuditRecord) (auditId : String) :
    List AuditRecord :=
  view.filter (fun audit => decide (audit.externalId ≠ auditId))

/-- One remote CRUD request dispatched by the orchestrator to
`AuditApiService`. -/
inductive RemoteCall where
  | listCall
  | createCall (request : CreateAuditRequest)
  | updateCall (id : String) (request : CreateAuditRequest)
  | deleteCall (id : String)
deriving DecidableEq, Repr

/-- Outcome of one background remote call, as observed by the orchestrator
(`now2` is the clock reading when the response is processed). -/
inductive RemoteOutcome where
  | ok (serverAudit : ApiAuditRecord) (now2 : Nat)
  | failed (errorMessage : String) (now2 : Nat)
deriving DecidableEq, Repr

/-- Outcome of a remote `getAudits` list call. -/
inductive ServerListOutcome where
  | ok (serverAudits : List ApiAuditRecord)
  | failed (errorMessage : String)
deriving DecidableEq, Repr

/-- Combined state of the orchestrator (`AuditActionService` together with
its collaborating state services): the durable store, the published active
view, the sync state, the audit state error/loading flags, and the log of
remote calls dispatched so far. -/
structure EngineState where
  db : List OfflineAuditItem
  view : List AuditRecord
  sync : SyncStateModel
  stateError : Option String
  loading : Bool
  calls : List RemoteCall
deriving DecidableEq, Repr

/-- Fresh session: empty store, empty view, initial sync state. -/
def initialEngineState : EngineState :=
  { db := []
    view := []
    sync := initialSyncState
    stateError := none
    loading := false
    calls := [] }

/-- Embedding of the private `updatePendingCount`: recompute the pending
count from the store. -/
def updatePendingCount (s : EngineState) : EngineState :=
  { s with sync :=
      setPendingRecordsCount s.sync (Int.ofNat (getPendingItems s.db).length) }

/-- Local-only identifier minted by `createAudit`:
the template literal over `Date.now()` and a random suffix. -/
def mintedLocalId (now : Nat) (rand : String) : String :=
  "local_" ++ (toString now ++ "_" ++ rand)

/-- Optimistic record minted by `createAudit`: a fresh `local_` id from the
clock and a random suffix, the request fields, the current date/time strings
and `Synced: 0`. -/
def optimisticAudit (apiRequest : CreateAuditRequest) (now : Nat)
    (rand dateStr timeStr : String) : ApiAuditRecord :=
  { ExternalId := mintedLocalId now rand
    SlotNumber := apiRequest.slotNumber
    PrimaryBarcode := apiRequest.primaryBarcode
    WarehouseLogistics := apiRequest.warehouseLogistics
    Comments := apiRequest.comments
    DateReceived := dateStr
    TimeReceived := timeStr
    Auditors := apiRequest.auditors
    WarehouseLocation := apiRequest.warehouseLocation
    Synced := some 0 }

/-- Embedding of the success path of `AuditActionService.syncCreateToServer`:
dispatch the remote create, then replace the optimistic record in the store
(`removeItem` old id, `saveItem` server record as synced), update the view
through `AuditStateService.updateAudit`, mark success and finalize. -/
def syncCreateToServerSuccess (s : EngineState) (optimistic : ApiAuditRecord)
    (apiRequest : CreateAuditRequest) (serverAudit : ApiAuditRecord)
    (now2 : Nat) : EngineState :=
  let sync1 :=
    setCurrentOperation (setSyncStatus s.sync SyncStatus.syncing now2)
      (some SyncOperation.create) (some optimistic.ExternalId)
  let s := { s with sync := sync1 }
  let s := { s with calls := s.calls ++ [RemoteCall.createCall apiRequest] }
  let db1 :=
    saveItem (removeItem s.db optimistic.ExternalId) serverAudit
      RecStatus.synced now2 ""
  let s := { s with db := db1 }
  let view1 := updateAuditInView s.view (transformApiAuditToAudit serverAudit)
  let s := { s with view := view1 }
  let s := { s with sync := setSyncStatus s.sync SyncStatus.success now2 }
  let s := { s with loading := false }
  let s := { s with sync := setCurrentOperation s.sync none none }
  updatePendingCount s

/-- Embedding of the failure path of `AuditActionService.syncCreateToServer`:
dispatch the remote create, keep the optimistic record pending, record the
sync error and finalize. -/
def syncCreateToServerFailure (s : EngineState) (_optimistic : ApiAuditRecord)
    (apiRequest : CreateAuditRequest) (errorMessage : String) (now2 : Nat) :
    EngineState :=
  let sync1 :=
    setCurrentOperation (setSyncStatus s.sync SyncStatus.syncing now2)
      (some SyncOperation.create) (some _optimistic.ExternalId)
  let s := { s with sync := sync1 }
  let s := { s with calls := s.calls ++ [RemoteCall.createCall apiRequest] }
  let sync2 :=
    setSyncError s.sync (some ("Failed to sync create: " ++ errorMessage))
  let s := { s with sync := sync2 }
  let s := { s with loading := false }
  let s := { s with sync := setCurrentOperation s.sync none none }
  updatePendingCount s

/-- Embedding of `AuditActionService.createAudit`: validate, mint an
optimistic pending record, persist and publish it synchronously, then (only
if online) run the background create with the given outcome. -/
def createAudit (s : EngineState) (request : CreateAuditRequest)
    (isOnline : Bool) (now : Nat) (rand dateStr timeStr : String)
    (outcome : RemoteOutcome) : EngineState :=
  let validationErrors := validateAuditData request
  if validationErrors ≠ [] then
    { s with stateError := some (String.intercalate ", " validationErrors) }
  else
    let s := { s with loading := true, stateError := none }
    let apiRequest := transformCreateRequestToApiRequest request
    let optimistic := optimisticAudit apiRequest now rand dateStr timeStr
    let s := { s with db := saveItem s.db optimistic RecStatus.pending now rand }
    let view1 := addAudit s.view (transformApiAuditToAudit optimistic)
    let s := { s with view := view1 }
    let s := updatePendingCount s
    if isOnline then
      match outcome with
      | RemoteOutcome.ok serverAudit now2 =>
          syncCreateToServerSuccess s optimistic apiRequest serverAudit now2
      | RemoteOutcome.failed e now2 =>
          syncCreateToServerFailure s optimistic apiRequest e now2
    else
      { s with loading := false }

/-- Embedding of `AuditActionService.updateAudit`: validate, send the update
remotely (no local-first path for edits), publish the returned version on
success, record the error on failure.  The store is not touched. -/
def updateAudit (s : EngineState) (request : UpdateAuditRequest)
    (outcome : RemoteOutcome) : EngineState :=
  let validationErrors := validateAuditData request.toCreateAuditRequest
  if validationErrors ≠ [] then
    { s with stateError := some (String.intercalate ", " validationErrors) }
  else
    let s := { s with loading := true, stateError := none }
    let apiRequest := transformUpdateRequestToApiRequest request
    let calls1 := s.calls ++ [RemoteCall.updateCall request.externalId apiRequest]
    let s := { s with calls := calls1 }
    match outcome with
    | RemoteOutcome.ok serverAudit _ =>
        let s := { s with loading := false }
        let view1 := updateAuditInView s.view (transformApiAuditToAudit serverAudit)
        { s with view := view1 }
    | RemoteOutcome.failed e _ =>
        let s := { s with stateError := some e }
        { s with loading := false }

/-- Embedding of the success path of `AuditActionService.syncDeleteToServer`:
dispatch the remote delete, hard-remove the record from the store, mark
success and finalize. -/
def syncDeleteToServerSuccess (s : EngineState) (id : String) (now : Nat) :
    EngineState :=
  let sync1 :=
    setCurrentOperation (setSyncStatus s.sync SyncStatus.syncing now)
      (some SyncOperation.delete) (some id)
  let s := { s with sync := sync1 }
  let s := { s with calls := s.calls ++ [RemoteCall.deleteCall id] }
  let s := { s with db := removeItem s.db id }
  let s := { s with sync := setSyncStatus s.sync SyncStatus.success now }
  let s := { s with loading := false }
  let s := { s with sync := setCurrentOperation s.sync none none }
  updatePendingCount s

/-- Embedding of the failure path of `AuditActionService.syncDeleteToServer`:
dispatch the remote delete, keep the soft-deleted record ("keep as pending
deletion"), record the sync error and finalize. -/
def syncDeleteToServerFailure (s : EngineState) (id : String) (now : Nat)
    (errorMessage : String) : EngineState :=
  let sync1 :=
    setCurrentOperation (setSyncStatus s.sync SyncStatus.syncing now)
      (some SyncOperation.delete) (some id)
  let s := { s with sync := sync1 }
  let s := { s with calls := s.calls ++ [RemoteCall.deleteCall id] }
  let sync2 :=
    setSyncError s.sync (some ("Failed to sync delete: " ++ errorMessage))
  let s := { s with sync := sync2 }
  let s := { s with loading := false }
  let s := { s with sync := setCurrentOperation s.sync none none }
  updatePendingCount s

/-- Embedding of `AuditActionService.deleteAudit`: remove from the view
immediately, soft-delete in the store, then (only if online) run the
background delete; `remoteFailure` carries the error message when the remote
delete fails. -/
def deleteAudit (s : EngineState) (id : String) (isOnline : Bool) (now : Nat)
    (remoteFailure : Option String) : EngineState :=
  let s := { s with loading := true, stateError := none }
  let s := { s with view := removeAuditFromView s.view id }
  let s := { s with db := deleteItem s.db id now }
  let s := updatePendingCount s
  if isOnline then
    match remoteFailure with
    | none => syncDeleteToServerSuccess s id now
    | some e => syncDeleteToServerFailure s id now e
  else
    { s with loading := false }

/-- Embedding of `AuditActionService.loadAudits`/`loadFromStorage` and its
two server paths: with an empty store while online, load everything from the
server (`loadFromServerWithFallback`); with a non-empty store, publish the
stored active records first and, while online, reconcile in the background
(`backgroundSyncFromServer`); offline, use storage data only. -/
def loadAudits (s : EngineState) (isOnline : Bool)
    (outcome : ServerListOutcome) (now : Nat) : EngineState :=
  let s := { s with loading := true, stateError := none }
  let offlineItems := getAllItems s.db
  if offlineItems.length = 0 ∧ isOnline = true then
    let s := { s with calls := s.calls ++ [RemoteCall.listCall] }
    match outcome with
    | ServerListOutcome.ok serverAudits =>
        let s := { s with view := serverAudits.map transformApiAuditToAudit }
        let db1 :=
          serverAudits.foldl
            (fun db audit => saveItem db audit RecStatus.synced now "") s.db
        let s := { s with db := db1 }
        { s with loading := false }
    | ServerListOutcome.failed _ =>
        let s := { s with stateError := some "Failed to load audit records from server" }
        { s with loading := false }
  else
    let view1 := offlineItems.map (fun it => transformApiAuditToAudit it.record)
    let s := { s with view := view1 }
    let s := updatePendingCount s
    if isOnline then
      let sync1 :=
        setCurrentOperation (setSyncStatus s.sync SyncStatus.syncing now)
          (some SyncOperation.fetch) none
      let s := { s with sync := sync1 }
      let s := { s with calls := s.calls ++ [RemoteCall.listCall] }
      let s :=
        match outcome with
        | ServerListOutcome.ok serverAudits =>
            let db1 :=
              serverAudits.foldl
                (fun db audit => saveItem db audit RecStatus.synced now "") s.db
            let s := { s with db := db1 }
            let s := { s with view := serverAudits.map transformApiAuditToAudit }
            { s with sync := setSyncStatus s.sync SyncStatus.success now }
        | ServerListOutcome.failed _ =>
            let sync2 := setSyncError s.sync (some "Failed to sync with server")
            { s with sync := sync2 }
      let s := { s with loading := false }
      let s := { s with sync := setCurrentOperation s.sync none none }
      updatePendingCount s
    else
      { s with loading := false }

/-- One user-level operation on the orchestrator, with its nondeterministic
environment (connectivity, clock readings, remote outcome) made explicit. -/
inductive AuditOp where
  | create (request : CreateAuditRequest) (isOnline : Bool) (now : Nat)
      (rand dateStr timeStr : String) (outcome : RemoteOutcome)
  | update (request : UpdateAuditRequest) (outcome : RemoteOutcome)
  | delete (id : String) (isOnline : Bool) (now : Nat)
      (remoteFailure : Option String)
  | load (isOnline : Bool) (outcome : ServerListOutcome) (now : Nat)
deriving DecidableEq, Repr

/-- Dispatch of one orchestrator operation. -/
def applyAuditOp (s : EngineState) : AuditOp → EngineState
  | AuditOp.create request isOnline now rand dateStr timeStr outcome =>
      createAudit s request isOnline now rand dateStr timeStr outcome
  | AuditOp.update request outcome => updateAudit s request outcome
  | AuditOp.delete id isOnline now remoteFailure =>
      deleteAudit s id isOnline now remoteFailure
  | AuditOp.load isOnline outcome now => loadAudits s isOnline outcome now

/-- Run a sequence of orchestrator operations from a fresh session. -/
def runAuditOps (ops : List AuditOp) : EngineState :=
  ops.foldl applyAuditOp initialEngineState

/-- Membership in an upsert: the new item, or an old item of a different key. -/
theorem mem_putByKey {db : List OfflineAuditItem} {x it : OfflineAuditItem}
    (h : it ∈ putByKey db x) :
    it = x ∨ (it ∈ db ∧ itemKey it ≠ itemKey x) := by
  unfold putByKey at h
  by_cases hany : db.any (fun j => decide (itemKey j = itemKey x)) = true
  · rw [if_pos hany] at h
    obtain ⟨j, hj, hje⟩ := List.mem_map.mp h
    by_cases hkey : itemKey j = itemKey x
    · rw [if_pos hkey] at hje
      exact Or.inl hje.symm
    · rw [if_neg hkey] at hje
      exact Or.inr (hje ▸ ⟨hj, hkey⟩)
  · rw [if_neg hany] at h
    rcases List.mem_append.mp h with hdb | hx
    · refine Or.inr ⟨hdb, fun hk => hany ?_⟩
      exact List.any_eq_true.mpr ⟨it, hdb, by simpa using hk⟩
    · exact Or.inl (by simpa using hx)

/-- Keys of the store are pairwise distinct (IndexedDB key uniqueness). -/
def nodupKeys (db : List OfflineAuditItem) : Prop :=
  (db.map itemKey).Nodup

theorem nodupKeys_putByKey {db : List OfflineAuditItem} {x : OfflineAuditItem}
    (h : nodupKeys db) : nodupKeys (putByKey db x) := by
  unfold putByKey
  by_cases hany : db.any (fun j => decide (itemKey j = itemKey x)) = true
  · rw [if_pos hany]
    unfold nodupKeys at h ⊢
    have hkeys :
        (db.map fun j => if itemKey j = itemKey x then x else j).map itemKey =
          db.map itemKey := by
      rw [List.map_map]
      refine List.map_congr_left fun j hj => ?_
      by_cases hk : itemKey j = itemKey x
      · simp [Function.comp, hk]
      · simp [Function.comp, hk]
    rw [hkeys]
    exact h
  · rw [if_neg hany]
    unfold nodupKeys at h ⊢
    rw [List.map_append, List.nodup_append]
    refine ⟨h, List.nodup_singleton _, fun k hk1 hk2 => hany ?_⟩
    obtain ⟨j, hj, hjk⟩ := List.mem_map.mp hk1
    have hkx : k = itemKey x := by simpa using hk2
    exact List.any_eq_true.mpr ⟨j, hj, by simp [hjk, hkx]⟩

/-- Membership in a save: the freshly stored item (carrying the saved
status), or an old item under a different key. -/
theorem mem_saveItem {db : List OfflineAuditItem} {a : ApiAuditRecord}
    {st : RecStatus} {now : Nat} {fresh : String} {it : OfflineAuditItem}
    (h : it ∈ saveItem db a st now fresh) :
    (itemKey it = a.ExternalId ∧ it._status = st) ∨
      (it ∈ db ∧ itemKey it ≠ a.ExternalId) := by
  rcases mem_putByKey h with rfl | ⟨hm, hne⟩
  · exact Or.inl ⟨rfl, rfl⟩
  · exact Or.inr ⟨hm, hne⟩

theorem nodupKeys_saveItem {db : List OfflineAuditItem} {a : ApiAuditRecord}
    {st : RecStatus} {now : Nat} {fresh : String} (h : nodupKeys db) :
    nodupKeys (saveItem db a st now fresh) :=
  nodupKeys_putByKey h

/-- Soft delete leaves the key multiset unchanged. -/
theorem map_itemKey_deleteItem (db : List OfflineAuditItem) (id : String)
    (now : Nat) : (deleteItem db id now).map itemKey = db.map itemKey := by
  unfold deleteItem
  split
  · rw [List.map_map]
    refine List.map_congr_left fun j hj => ?_
    simp only [Function.comp_apply]
    by_cases hk : itemKey j = id
    · rw [if_pos hk]
      rfl
    · rw [if_neg hk]
  · rfl

theorem nodupKeys_deleteItem {db : List OfflineAuditItem} {id : String}
    {now : Nat} (h : nodupKeys db) : nodupKeys (deleteItem db id now) := by
  unfold nodupKeys
  rw [map_itemKey_deleteItem]
  exact h

/-- An item of another key survives a soft delete untouched. -/
theorem mem_deleteItem_ne {db : List OfflineAuditItem} {id : String}
    {now : Nat} {it : OfflineAuditItem} (h : it ∈ deleteItem db id now)
    (hne : itemKey it ≠ id) : it ∈ db := by
  unfold deleteItem at h
  split at h
  · obtain ⟨j, hj, hje⟩ := List.mem_map.mp h
    by_cases hk : itemKey j = id
    · rw [if_pos hk] at hje
      subst hje
      exact absurd hk hne
    · rw [if_neg hk] at hje
      exact hje ▸ hj
  · exact h

/-- After a soft delete every stored item under the deleted key is marked
deleted. -/
theorem mem_deleteItem_status {db : List OfflineAuditItem} {id : String}
    {now : Nat} {it : OfflineAuditItem} (h : it ∈ deleteItem db id now)
    (hk : itemKey it = id) : it._status = RecStatus.deleted := by
  unfold deleteItem at h
  split at h
  · obtain ⟨j, hj, hje⟩ := List.mem_map.mp h
    by_cases hjk : itemKey j = id
    · rw [if_pos hjk] at hje
      subst hje
      rfl
    · rw [if_neg hjk] at hje
      exact absurd (hje ▸ hk) hjk
  · rename_i hany
    exact absurd (List.any_eq_true.mpr ⟨it, h, by simpa using hk⟩) hany

theorem mem_removeItem {db : List OfflineAuditItem} {id : String}
    {it : OfflineAuditItem} (h : it ∈ removeItem db id) :
    it ∈ db ∧ itemKey it ≠ id := by
  unfold removeItem at h
  rw [List.mem_filter] at h
  exact ⟨h.1, by simpa using h.2⟩

theorem nodupKeys_removeItem {db : List OfflineAuditItem} {id : String}
    (h : nodupKeys db) : nodupKeys (removeItem db id) :=
  h.sublist ((List.filter_sublist db).map itemKey)

theorem mem_getAllItems {db : List OfflineAuditItem} {it : OfflineAuditItem}
    (h : it ∈ getAllItems db) : it ∈ db ∧ it._status ≠ RecStatus.deleted := by
  unfold getAllItems at h
  rw [List.mem_filter] at h
  exact ⟨h.1, by simpa using h.2⟩

/-- Saving every record of a server list as synced
(`Promise.all(savePromises)` in the load paths). -/
def saveAllSynced (db : List OfflineAuditItem)
    (serverAudits : List ApiAuditRecord) (now : Nat) : List OfflineAuditItem :=
  serverAudits.foldl (fun db audit => saveItem db audit RecStatus.synced now "") db

theorem nodupKeys_saveAllSynced {db : List OfflineAuditItem}
    {serverAudits : List ApiAuditRecord} {now : Nat} (h : nodupKeys db) :
    nodupKeys (saveAllSynced db serverAudits now) := by
  induction serverAudits generalizing db with
  | nil => exact h
  | cons a rest ih =>
      simp only [saveAllSynced, List.foldl_cons]
      exact ih (nodupKeys_saveItem h)

/-- No stored item under key `k` is marked deleted. -/
def KeyNotDeleted (k : String) (db : List OfflineAuditItem) : Prop :=
  ∀ it ∈ db, itemKey it = k → it._status ≠ RecStatus.deleted

theorem keyNotDeleted_saveItem_self {db : List OfflineAuditItem}
    {a : ApiAuditRecord} {st : RecStatus} {now : Nat} {fresh : String}
    (hst : st ≠ RecStatus.deleted) :
    KeyNotDeleted a.ExternalId (saveItem db a st now fresh) := by
  intro it hit hk
  rcases mem_saveItem hit with ⟨-, hs⟩ | ⟨-, hne⟩
  · rw [hs]
    exact hst
  · exact absurd hk hne

theorem keyNotDeleted_saveItem {db : List OfflineAuditItem} {k : String}
    {a : ApiAuditRecord} {st : RecStatus} {now : Nat} {fresh : String}
    (hst : st ≠ RecStatus.deleted) (h : KeyNotDeleted k db) :
    KeyNotDeleted k (saveItem db a st now fresh) := by
  intro it hit hk
  rcases mem_saveItem hit with ⟨-, hs⟩ | ⟨hm, -⟩
  · rw [hs]
    exact hst
  · exact h it hm hk

theorem keyNotDeleted_saveAllSynced_of {db : List OfflineAuditItem} {k : String}
    {serverAudits : List ApiAuditRecord} {now : Nat} (h : KeyNotDeleted k db) :
    KeyNotDeleted k (saveAllSynced db serverAudits now) := by
  induction serverAudits generalizing db with
  | nil => exact h
  | cons a rest ih =>
      simp only [saveAllSynced, List.foldl_cons]
      exact ih (keyNotDeleted_saveItem (fun hh => RecStatus.noConfusion hh) h)

theorem keyNotDeleted_saveAllSynced_mem {db : List OfflineAuditItem}
    {serverAudits : List ApiAuditRecord} {now : Nat} {a : ApiAuditRecord}
    (ha : a ∈ serverAudits) :
    KeyNotDeleted a.ExternalId (saveAllSynced db serverAudits now) := by
  induction serverAudits generalizing db with
  | nil => cases ha
  | cons b rest ih =>
      simp only [saveAllSynced, List.foldl_cons]
      rcases List.mem_cons.mp ha with rfl | hmem
      · exact keyNotDeleted_saveAllSynced_of
          (keyNotDeleted_saveItem_self (fun hh => RecStatus.noConfusion hh))
      · exact ih hmem

theorem mem_addAudit {view : List AuditRecord} {x a : AuditRecord}
    (h : a ∈ addAudit view x) : a ∈ view ∨ a = x := by
  unfold addAudit at h
  rcases List.mem_append.mp h with h1 | h2
  · exact Or.inl h1
  · exact Or.inr (by simpa using h2)

theorem mem_updateAuditInView {view : List AuditRecord} {u a : AuditRecord}
    (h : a ∈ updateAuditInView view u) :
    a ∈ view ∨ (a = u ∧ ∃ j ∈ view, j.externalId = u.externalId) := by
  unfold updateAuditInView at h
  obtain ⟨j, hj, hje⟩ := List.mem_map.mp h
  by_cases hk : j.externalId = u.externalId
  · rw [if_pos hk] at hje
    exact Or.inr ⟨hje.symm, j, hj, hk⟩
  · rw [if_neg hk] at hje
    exact Or.inl (hje ▸ hj)

theorem mem_removeAuditFromView {view : List AuditRecord} {id : String}
    {a : AuditRecord} (h : a ∈ removeAuditFromView view id) :
    a ∈ view ∧ a.externalId ≠ id := by
  unfold removeAuditFromView at h
  rw [List.mem_filter] at h
  exact ⟨h.1, by simpa using h.2⟩

/-- The store/view agreement the spec demands: no record published in the
active view sits in the store with status deleted. -/
def DbViewInv (db : List OfflineAuditItem) (view : List AuditRecord) : Prop :=
  ∀ a ∈ view, ∀ it ∈ db, itemKey it = a.externalId →
    it._status ≠ RecStatus.deleted

theorem dbViewInv_mono_db {db₁ db₂ : List OfflineAuditItem}
    {view : List AuditRecord} (hsub : ∀ it ∈ db₂, it ∈ db₁)
    (h : DbViewInv db₁ view) : DbViewInv db₂ view :=
  fun a ha it hit hk => h a ha it (hsub it hit) hk

theorem dbViewInv_saveItem {db : List OfflineAuditItem} {view : List AuditRecord}
    {a : ApiAuditRecord} {st : RecStatus} {now : Nat} {fresh : String}
    (hst : st ≠ RecStatus.deleted) (h : DbViewInv db view) :
    DbViewInv (saveItem db a st now fresh) view := by
  intro x hx it hit hk
  rcases mem_saveItem hit with ⟨-, hs⟩ | ⟨hm, -⟩
  · rw [hs]
    exact hst
  · exact h x hx it hm hk

theorem dbViewInv_saveItem_add {db : List OfflineAuditItem}
    {view : List AuditRecord} {a : ApiAuditRecord} {st : RecStatus} {now : Nat}
    {fresh : String} (hst : st ≠ RecStatus.deleted) (h : DbViewInv db view) :
    DbViewInv (saveItem db a st now fresh)
      (addAudit view (transformApiAuditToAudit a)) := by
  intro x hx it hit hk
  rcases mem_saveItem hit with ⟨-, hs⟩ | ⟨hm, hne⟩
  · rw [hs]
    exact hst
  · rcases mem_addAudit hx with hxv | rfl
    · exact h x hxv it hm hk
    · exact absurd hk hne

theorem dbViewInv_updateView {db : List OfflineAuditItem}
    {view : List AuditRecord} {u : AuditRecord} (h : DbViewInv db view) :
    DbViewInv db (updateAuditInView view u) := by
  intro x hx it hit hk
  rcases mem_updateAuditInView hx with hxv | ⟨rfl, j, hj, hjid⟩
  · exact h x hxv it hit hk
  · exact h j hj it hit (hk.trans hjid.symm)

theorem dbViewInv_delete {db : List OfflineAuditItem} {view : List AuditRecord}
    {id : String} {now : Nat} (h : DbViewInv db view) :
    DbViewInv (deleteItem db id now) (removeAuditFromView view id) := by
  intro x hx it hit hk
  obtain ⟨hxv, hxid⟩ := mem_removeAuditFromView hx
  have hne : itemKey it ≠ id := fun hh => hxid (hk.symm.trans hh)
  exact h x hxv it (mem_deleteItem_ne hit hne) hk

theorem dbViewInv_load {db : List OfflineAuditItem} (hn : nodupKeys db) :
    DbViewInv db
      ((getAllItems db).map (fun it => transformApiAuditToAudit it.record)) := by
  intro x hx it hit hk
  obtain ⟨r, hr, rfl⟩ := List.mem_map.mp hx
  obtain ⟨hrdb, hrstat⟩ := mem_getAllItems hr
  have hkeq : itemKey it = itemKey r := hk
  have hir : it = r := List.inj_on_of_nodup_map hn hit hrdb hkeq
  rw [hir]
  exact hrstat

theorem dbViewInv_loadServer {db : List OfflineAuditItem}
    {serverAudits : List ApiAuditRecord} {now : Nat} :
    DbViewInv (saveAllSynced db serverAudits now)
      (serverAudits.map transformApiAuditToAudit) := by
  intro x hx it hit hk
  obtain ⟨sa, hsa, rfl⟩ := List.mem_map.mp hx
  exact keyNotDeleted_saveAllSynced_mem hsa it hit hk

/-- Combined engine invariant: unique store keys and no deleted record
published in the view. -/
def EngineInv (s : EngineState) : Prop :=
  nodupKeys s.db ∧ DbViewInv s.db s.view

theorem engineInv_initial : EngineInv initialEngineState := by
  constructor
  · exact List.nodup_nil
  · intro a ha
    cases ha

theorem engineInv_preserved (s : EngineState) (op : AuditOp)
    (h : EngineInv s) : EngineInv (applyAuditOp s op) := by
  obtain ⟨hn, hv⟩ := h
  have hpend : RecStatus.pending ≠ RecStatus.deleted :=
    fun hh => RecStatus.noConfusion hh
  have hsync : RecStatus.synced ≠ RecStatus.deleted :=
    fun hh => RecStatus.noConfusion hh
  cases op with
  | create request isOnline now rand dateStr timeStr outcome =>
      show EngineInv (createAudit s request isOnline now rand dateStr timeStr outcome)
      unfold createAudit
      by_cases hval : validateAuditData request ≠ []
      · rw [if_pos hval]
        exact ⟨hn, hv⟩
      · rw [if_neg hval]
        cases isOnline with
        | false =>
            exact ⟨nodupKeys_saveItem hn, dbViewInv_saveItem_add hpend hv⟩
        | true =>
            cases outcome with
            | ok serverAudit now2 =>
                exact ⟨nodupKeys_saveItem (nodupKeys_removeItem (nodupKeys_saveItem hn)),
                  dbViewInv_updateView (dbViewInv_saveItem hsync
                    (dbViewInv_mono_db (fun it hit => (mem_removeItem hit).1)
                      (dbViewInv_saveItem_add hpend hv)))⟩
            | failed e now2 =>
                exact ⟨nodupKeys_saveItem hn, dbViewInv_saveItem_add hpend hv⟩
  | update request outcome =>
      show EngineInv (updateAudit s request outcome)
      unfold updateAudit
      by_cases hval : validateAuditData request.toCreateAuditRequest ≠ []
      · rw [if_pos hval]
        exact ⟨hn, hv⟩
      · rw [if_neg hval]
        cases outcome with
        | ok serverAudit now2 => exact ⟨hn, dbViewInv_updateView hv⟩
        | failed e now2 => exact ⟨hn, hv⟩
  | delete id isOnline now remoteFailure =>
      show EngineInv (deleteAudit s id isOnline now remoteFailure)
      unfold deleteAudit
      cases isOnline with
      | false => exact ⟨nodupKeys_deleteItem hn, dbViewInv_delete hv⟩
      | true =>
          cases remoteFailure with
          | none =>
              exact ⟨nodupKeys_removeItem (nodupKeys_deleteItem hn),
                dbViewInv_mono_db (fun it hit => (mem_removeItem hit).1)
                  (dbViewInv_delete hv)⟩
          | some e => exact ⟨nodupKeys_deleteItem hn, dbViewInv_delete hv⟩
  | load isOnline outcome now =>
      show EngineInv (loadAudits s isOnline outcome now)
      unfold loadAudits
      by_cases hempty : (getAllItems s.db).length = 0 ∧ isOnline = true
      · rw [if_pos hempty]
        cases outcome with
        | ok serverAudits =>
            exact ⟨nodupKeys_saveAllSynced hn, dbViewInv_loadServer⟩
        | failed e => exact ⟨hn, hv⟩
      · rw [if_neg hempty]
        cases isOnline with
        | false => exact ⟨hn, dbViewInv_load hn⟩
        | true =>
            cases outcome with
            | ok serverAudits =>
                exact ⟨nodupKeys_saveAllSynced hn, dbViewInv_loadServer⟩
            | failed e => exact ⟨hn, dbViewInv_load hn⟩

theorem engineInv_run (ops : List AuditOp) : EngineInv (runAuditOps ops) := by
  rw [runAuditOps]
  generalize hinit : initialEngineState = s
  have hbase : EngineInv s := hinit ▸ engineInv_initial
  clear hinit
  induction ops generalizing s with
  | nil => exact hbase
  | cons op rest ih =>
      exact ih (applyAuditOp s op) (engineInv_preserved s op hbase)

/-- C9: after every sequence of create, update, delete and load operations
from a fresh session, the published active view never contains a record whose
stored status is deleted. -/
theorem C9_view_never_contains_deleted (ops : List AuditOp) :
    ∀ a ∈ (runAuditOps ops).view, ∀ it ∈ (runAuditOps ops).db,
      itemKey it = a.externalId → it._status ≠ RecStatus.deleted :=
  (engineInv_run ops).2

/-- Valid create request used for concrete runs. -/
def sampleCreateRequest : CreateAuditRequest :=
  { slotNumber := "A1-B2-C3"
    primaryBarcode := "123456789012"
    warehouseLogistics := "INBOUND"
    comments := "ok"
    auditors := "John Doe"
    warehouseLocation := "Section A" }

/-- Server answer for the concrete create run: a remote-assigned id. -/
def sampleServerAudit : ApiAuditRecord :=
  { sampleAudit with ExternalId := "EXT-9" }

/-- Concrete run for C1: an online create whose background remote create
succeeds, returning the server record with id EXT-9. -/
def sampleCreateSuccessOps : List AuditOp :=
  [AuditOp.create sampleCreateRequest true 1 "x7" "2023-10-15" "14:30:00"
    (RemoteOutcome.ok sampleServerAudit 2)]

/-- C1, evaluated at the failing input: after a create whose remote create
succeeds, the durable store is fully replaced (only EXT-9, status synced),
but the active view still contains the old local id and never receives the
EXT-9 record, because `AuditStateService.updateAudit` matches on the new
server id, which no view entry carries. -/
theorem C1_create_success_view_keeps_local_id :
    (runAuditOps sampleCreateSuccessOps).db.map itemKey = ["EXT-9"] ∧
    (runAuditOps sampleCreateSuccessOps).db.map (fun it => it._status) =
      [RecStatus.synced] ∧
    (runAuditOps sampleCreateSuccessOps).view.map (fun a => a.externalId) =
      ["local_1_x7"] := by
  decide

/-- Concrete run preparing C2: an offline create leaves the record
local_1_x7 pending in store and view. -/
def sampleOfflineCreateOps : List AuditOp :=
  [AuditOp.create sampleCreateRequest false 1 "x7" "2023-10-15" "14:30:00"
    (RemoteOutcome.failed "unused" 0)]

/-- Concrete run for C2: the offline create followed by an online delete of
that record whose background remote delete fails with HTTP 500. -/
def sampleDeleteFailureOps : List AuditOp :=
  sampleOfflineCreateOps ++
    [AuditOp.delete "local_1_x7" true 3 (some "HTTP 500")]

/-- C2 counterexample: the record local_1_x7 is in the active view before the
delete; after the online delete whose remote call fails, the view is empty —
the deleted record is NOT restored (a sync error is surfaced, but the record
stays soft-deleted and invisible). -/
theorem C2_delete_failure_not_restored_counterexample :
    (runAuditOps sampleOfflineCreateOps).view.map (fun a => a.externalId) =
      ["local_1_x7"] ∧
    (runAuditOps sampleDeleteFailureOps).view = [] ∧
    (runAuditOps sampleDeleteFailureOps).sync.syncError =
      some "Failed to sync delete: HTTP 500" := by
  decide

/-- C2 amended: when an online delete's background remote delete fails, the
record stays soft-deleted — absent from the active view, marked deleted in
the store — and a sync error is surfaced; no rollback happens on this path. -/
theorem C2_delete_remote_failure_stays_deleted
    (s : EngineState) (id : String) (now : Nat) (e : String) :
    (∀ a ∈ (deleteAudit s id true now (some e)).view, a.externalId ≠ id) ∧
    (∀ it ∈ (deleteAudit s id true now (some e)).db,
      itemKey it = id → it._status = RecStatus.deleted) ∧
    (deleteAudit s id true now (some e)).sync.syncError =
      some ("Failed to sync delete: " ++ e) :=
  ⟨fun a ha => (mem_removeAuditFromView ha).2,
    fun it hit hk => mem_deleteItem_status hit hk,
    setSyncError_syncError _ _⟩

/-- Witness for C2's amended theorem at a concrete state. -/
theorem C2_delete_remote_failure_stays_deleted_witness :
    (deleteAudit initialEngineState "A" true 3 (some "boom")).sync.syncError =
      some "Failed to sync delete: boom" :=
  (C2_delete_remote_failure_stays_deleted initialEngineState "A" 3 "boom").2.2

/-- The offline item stored by the concrete offline create. -/
def sampleStoredOfflineItem : OfflineAuditItem :=
  mkOfflineItem
    (optimisticAudit (transformCreateRequestToApiRequest sampleCreateRequest)
      1 "x7" "2023-10-15" "14:30:00")
    RecStatus.pending 1 "x7"

/-- Witness for C9 at a concrete run: the one stored item matching the one
published record is not deleted. -/
theorem C9_view_never_contains_deleted_witness :
    sampleStoredOfflineItem._status ≠ RecStatus.deleted :=
  C9_view_never_contains_deleted sampleOfflineCreateOps
    (transformApiAuditToAudit
      (optimisticAudit (transformCreateRequestToApiRequest sampleCreateRequest)
        1 "x7" "2023-10-15" "14:30:00"))
    (by decide) sampleStoredOfflineItem (by decide) (by decide)

/-- A save under a key absent from the store leaves exactly one item under
that key. -/
theorem saveItem_fresh_unique {db : List OfflineAuditItem} {a : ApiAuditRecord}
    {st : RecStatus} {now : Nat} {fresh : String} {k : String}
    (hkey : a.ExternalId = k)
    (hfresh : ∀ it ∈ db, itemKey it ≠ k) :
    ((saveItem db a st now fresh).filter
        (fun it => decide (itemKey it = k))).length = 1 := by
  subst hkey
  unfold saveItem putByKey
  rw [if_neg ?hany]
  case hany =>
    intro hh
    obtain ⟨j, hj, hjp⟩ := List.any_eq_true.mp hh
    exact hfresh j hj (by simpa using hjp)
  rw [List.filter_append]
  have h1 : db.filter (fun it => decide (itemKey it = a.ExternalId)) = [] :=
    List.filter_eq_nil_iff.mpr fun it hit => by simpa using hfresh it hit
  have h2 : [mkOfflineItem a st now fresh].filter
      (fun it => decide (itemKey it = a.ExternalId)) =
        [mkOfflineItem a st now fresh] := by
    simp [mkOfflineItem, itemKey]
  rw [h1, h2]
  rfl

/-- C8: a valid create issued while the network gate reports offline performs
zero remote calls and leaves exactly one stored record under the freshly
minted local id, with status pending; the minted id carries the `local_`
marker that distinguishes it from remote-assigned ids. -/
theorem C8_create_offline_one_pending_no_calls
    (s : EngineState) (request : CreateAuditRequest) (now : Nat)
    (rand dateStr timeStr : String) (outcome : RemoteOutcome)
    (hval : validateAuditData request = [])
    (hfresh : ∀ it ∈ s.db, itemKey it ≠ mintedLocalId now rand) :
    (createAudit s request false now rand dateStr timeStr outcome).calls =
      s.calls ∧
    ((createAudit s request false now rand dateStr timeStr outcome).db.filter
        (fun it => decide (itemKey it = mintedLocalId now rand))).length = 1 ∧
    (∀ it ∈ (createAudit s request false now rand dateStr timeStr outcome).db,
      itemKey it = mintedLocalId now rand → it._status = RecStatus.pending) ∧
    (∃ tail, mintedLocalId now rand = "local_" ++ tail) := by
  have hnotval : ¬ validateAuditData request ≠ [] := fun hh => hh hval
  refine ⟨?_, ?_, ?_, ⟨toString now ++ "_" ++ rand, rfl⟩⟩
  · unfold createAudit
    rw [if_neg hnotval]
    rfl
  · unfold createAudit
    rw [if_neg hnotval]
    show ((saveItem s.db
        (optimisticAudit (transformCreateRequestToApiRequest request) now rand
          dateStr timeStr) RecStatus.pending now rand).filter
        (fun it => decide (itemKey it = mintedLocalId now rand))).length = 1
    apply saveItem_fresh_unique ?_ hfresh
    rfl
  · unfold createAudit
    rw [if_neg hnotval]
    intro it hit hk
    rcases mem_saveItem hit with ⟨-, hs⟩ | ⟨-, hne⟩
    · exact hs
    · exact absurd hk hne

/-- Witness for C8 at a concrete offline create from a fresh session. -/
theorem C8_create_offline_one_pending_no_calls_witness :
    (createAudit initialEngineState sampleCreateRequest false 1 "x7"
        "2023-10-15" "14:30:00" (RemoteOutcome.failed "unused" 0)).calls = [] ∧
    ((createAudit initialEngineState sampleCreateRequest false 1 "x7"
        "2023-10-15" "14:30:00" (RemoteOutcome.failed "unused" 0)).db.filter
      (fun it => decide (itemKey it = mintedLocalId 1 "x7"))).length = 1 :=
  have h := C8_create_offline_one_pending_no_calls initialEngineState
    sampleCreateRequest 1 "x7" "2023-10-15" "14:30:00"
    (RemoteOutcome.failed "unused" 0) (by decide)
    (fun it hit => absurd hit (List.not_mem_nil it))
  ⟨h.1, h.2.1⟩

/-- One remote call per pending item in `processPendingAudits`: items whose
id starts with the local-only marker are sent as creates, the rest as
updates. -/
def dispatchSyncCall (audit : OfflineAuditItem) : RemoteCall :=
  if jsStartsWith audit.record.ExternalId "local_" then
    RemoteCall.createCall (transformOfflineRecordToApiRequest audit.record)
  else
    RemoteCall.updateCall audit.record.ExternalId
      (transformOfflineRecordToApiRequest audit.record)

/-- The remote calls dispatched by
`AuditActionService.processPendingAudits`: one call per pending item
(create or update) and one delete per soft-deleted item. -/
def processPendingAuditsCalls
    (pendingItems deletedItems : List OfflineAuditItem) : List RemoteCall :=
  pendingItems.map dispatchSyncCall ++
    deletedItems.map (fun audit => RemoteCall.deleteCall audit.record.ExternalId)

/-- Embedding of the guard and dispatch phase of
`AuditActionService.syncToServer`: offline yields a sync error and nothing
else; an in-progress sync returns silently; otherwise the pending and
deleted items are gathered and dispatched (an empty batch completes
immediately). -/
def syncToServer (isOnline : Bool) (s : SyncStateModel)
    (db : List OfflineAuditItem) (now : Nat) :
    SyncStateModel × List OfflineAuditItem × List RemoteCall :=
  if isOnline = false then
    (setSyncError s (some "Cannot sync: offline"), db, [])
  else if s.syncStatus = SyncStatus.syncing then
    (s, db, [])
  else
    let s1 := setCurrentOperation (setSyncStatus s SyncStatus.syncing now)
      (some SyncOperation.fetch) none
    let pendingItems := getPendingItems db
    let deletedItems := getDeletedItems db
    if pendingItems.length + deletedItems.length = 0 then
      (setCurrentOperation (setSyncStatus s1 SyncStatus.success now) none none,
        db, [])
    else
      (s1, db, processPendingAuditsCalls pendingItems deletedItems)

/-- Shared per-batch progress of a manual sync: the `processed` counter and
the sync status updated by `checkSyncCompletion`. -/
structure SyncProgress where
  processed : Nat
  status : SyncStatus
deriving DecidableEq, Repr

/-- Embedding of `AuditActionService.checkSyncCompletion` on the status:
transition to success exactly when every dispatched item has reported. -/
def checkSyncCompletion (processed total : Nat) (status : SyncStatus) :
    SyncStatus :=
  if processed = total then SyncStatus.success else status

/-- One item reporting (success or failure): `processed++` followed by
`checkSyncCompletion(processed, total)`. -/
def reportOne (total : Nat) (p : SyncProgress) : SyncProgress :=
  { processed := p.processed + 1
    status := checkSyncCompletion (p.processed + 1) total p.status }

/-- Progress after the first `k` of `total` dispatched items have reported,
starting from the syncing status set by `syncToServer`. -/
def runReports (total : Nat) : Nat → SyncProgress
  | 0 => { processed := 0, status := SyncStatus.syncing }
  | k + 1 => reportOne total (runReports total k)

theorem runReports_processed (total k : Nat) :
    (runReports total k).processed = k := by
  induction k with
  | zero => rfl
  | succ k ih =>
      show (reportOne total (runReports total k)).processed = k + 1
      unfold reportOne
      rw [ih]

theorem runReports_status_lt (total k : Nat) (h : k < total) :
    (runReports total k).status = SyncStatus.syncing := by
  induction k with
  | zero => rfl
  | succ k ih =>
      show (reportOne total (runReports total k)).status = SyncStatus.syncing
      unfold reportOne checkSyncCompletion
      rw [runReports_processed]
      rw [if_neg (by omega)]
      exact ih (Nat.lt_of_succ_lt h)

theorem runReports_status_total (total : Nat) (h : 0 < total) :
    (runReports total total).status = SyncStatus.success := by
  obtain ⟨m, rfl⟩ : ∃ m, total = m + 1 := ⟨total - 1, by omega⟩
  show (reportOne (m + 1) (runReports (m + 1) m)).status = SyncStatus.success
  unfold reportOne checkSyncCompletion
  rw [runReports_processed]
  rw [if_pos rfl]

/-- C6: a manual sync over n pending and m deleted records dispatches exactly
n + m remote calls — a create for each pending record with a local-only id, an
update for each other pending record, a delete for each deleted record — and
the status reaches success only once all n + m items have reported, never
before. -/
theorem C6_manual_sync_dispatch_and_completion
    (pendingItems deletedItems : List OfflineAuditItem) :
    (processPendingAuditsCalls pendingItems deletedItems).length =
      pendingItems.length + deletedItems.length ∧
    (∀ audit ∈ pendingItems,
      jsStartsWith audit.record.ExternalId "local_" = true →
      RemoteCall.createCall (transformOfflineRecordToApiRequest audit.record) ∈
        processPendingAuditsCalls pendingItems deletedItems) ∧
    (∀ audit ∈ pendingItems,
      jsStartsWith audit.record.ExternalId "local_" = false →
      RemoteCall.updateCall audit.record.ExternalId
          (transformOfflineRecordToApiRequest audit.record) ∈
        processPendingAuditsCalls pendingItems deletedItems) ∧
    (∀ audit ∈ deletedItems,
      RemoteCall.deleteCall audit.record.ExternalId ∈
        processPendingAuditsCalls pendingItems deletedItems) ∧
    (∀ k < pendingItems.length + deletedItems.length,
      (runReports (pendingItems.length + deletedItems.length) k).status =
        SyncStatus.syncing) ∧
    (0 < pendingItems.length + deletedItems.length →
      (runReports (pendingItems.length + deletedItems.length)
          (pendingItems.length + deletedItems.length)).status =
        SyncStatus.success) := by
  refine ⟨?_, ?_, ?_, ?_, fun k hk => runReports_status_lt _ k hk,
    fun h => runReports_status_total _ h⟩
  · simp [processPendingAuditsCalls]
  · intro audit ha hloc
    refine List.mem_append.mpr (Or.inl ?_)
    exact List.mem_map.mpr ⟨audit, ha, by simp [dispatchSyncCall, hloc]⟩
  · intro audit ha hloc
    refine List.mem_append.mpr (Or.inl ?_)
    exact List.mem_map.mpr ⟨audit, ha, by simp [dispatchSyncCall, hloc]⟩
  · intro audit ha
    refine List.mem_append.mpr (Or.inr ?_)
    exact List.mem_map.mpr ⟨audit, ha, rfl⟩

/-- Pending item with a local-only id, as stored by an offline create. -/
def samplePendingLocalItem : OfflineAuditItem :=
  mkOfflineItem { sampleAudit with ExternalId := "local_5_ab" }
    RecStatus.pending 5 "ab"

/-- Pending item with a remote-assigned id (a locally modified record). -/
def samplePendingRemoteItem : OfflineAuditItem :=
  mkOfflineItem sampleAudit RecStatus.pending 6 "z"

/-- Soft-deleted item awaiting a remote delete. -/
def sampleDeletedOfflineItem : OfflineAuditItem :=
  { record := { sampleAudit with ExternalId := "EXT-2" }
    _localId := "EXT-2"
    _status := RecStatus.deleted
    _lastModified := 7 }

/-- Witness for C6 on a batch of two pending and one deleted record. -/
theorem C6_manual_sync_dispatch_and_completion_witness :
    (runReports 3 2).status = SyncStatus.syncing ∧
    (runReports 3 3).status = SyncStatus.success ∧
    RemoteCall.deleteCall "EXT-2" ∈
      processPendingAuditsCalls [samplePendingLocalItem, samplePendingRemoteItem]
        [sampleDeletedOfflineItem] :=
  ⟨(C6_manual_sync_dispatch_and_completion
      [samplePendingLocalItem, samplePendingRemoteItem]
      [sampleDeletedOfflineItem]).2.2.2.2.1 2 (by decide),
    (C6_manual_sync_dispatch_and_completion
      [samplePendingLocalItem, samplePendingRemoteItem]
      [sampleDeletedOfflineItem]).2.2.2.2.2 (by decide),
    (C6_manual_sync_dispatch_and_completion
      [samplePendingLocalItem, samplePendingRemoteItem]
      [sampleDeletedOfflineItem]).2.2.2.1 sampleDeletedOfflineItem
      (List.mem_singleton.mpr rfl)⟩

/-- Sync state during an in-progress synchronization. -/
def syncingState : SyncStateModel :=
  { initialSyncState with syncStatus := SyncStatus.syncing }

/-- C7 counterexample: a manual sync requested while another sync is in
progress (and online) is a silent no-op — no call dispatched, no mutation,
and NO error surfaced, contrary to the claim that both guard cases surface
an error. -/
theorem C7_already_syncing_silent_counterexample :
    (syncToServer true syncingState [] 0).1 = syncingState ∧
    (syncToServer true syncingState [] 0).1.syncError = none ∧
    (syncToServer true syncingState [] 0).2.2 = ([] : List RemoteCall) := by
  decide

/-- C7 amended: offline, `syncToServer` dispatches nothing, mutates no
storage and surfaces the offline error; already syncing (online), it
dispatches nothing and mutates nothing but surfaces no error (silent
no-op). -/
theorem C7_syncToServer_guards (s : SyncStateModel)
    (db : List OfflineAuditItem) (now : Nat) :
    ((syncToServer false s db now).1.syncError = some "Cannot sync: offline" ∧
     (syncToServer false s db now).1.syncStatus = SyncStatus.error ∧
     (syncToServer false s db now).2.1 = db ∧
     (syncToServer false s db now).2.2 = []) ∧
    (s.syncStatus = SyncStatus.syncing →
      syncToServer true s db now = (s, db, [])) := by
  constructor
  · exact ⟨rfl, rfl, rfl, rfl⟩
  · intro hs
    unfold syncToServer
    rw [if_neg (by decide), if_pos hs]

/-- Witness for C7's amended theorem at a concrete in-progress state. -/
theorem C7_syncToServer_guards_witness :
    syncToServer true syncingState [] 7 = (syncingState, [], []) :=
  (C7_syncToServer_guards syncingState [] 7).2 rfl
